import Mathlib

/-!
# Verification of the deej serial protocol engine

Shallow embedding of the serial I/O layer of the deej repository:

* `src/pkg/deej/serial.go` — the binary-mode variant (`handleBytes`,
  `readBytes`, `Start`);
* `src/unnamed/part_000` — the line-mode variant (`handleLine`,
  `readLine`, `expectedLinePattern`, `Start`).

Modelling conventions:

* Go `float32` values are modelled as `ℚ`.  All quantities the claims
  touch (normalized slider values, thresholds) are exactly representable
  and the comparisons hold with wide margins, so the verdicts transfer.
* Go byte slices are `List Nat`, with `% 256` applied where the Go code
  relies on the `uint8` type; `uint16` arithmetic uses explicit masks.
* Code that can panic (out-of-range indexing) returns `Option`.
* `util.NormalizeScalar` and `util.SignificantlyDifferent` live in
  `pkg/deej/util`, which is not part of the provided sources; they are
  modelled from the spec (see their doc comments).
-/

/-- `ArduinoData` from `src/pkg/deej/serial.go`: one decoded binary-mode
channel reading.  `Value` is a Go `int`. -/
structure ArduinoData where
  Value : Int
  ToggleMute : Bool
deriving DecidableEq, Repr

/-- Interpretation of a Go `int16(u)` conversion applied to a `uint16`
quantity: reduce mod `2^16` and take the two's-complement reading. -/
def toInt16 (u : Nat) : Int :=
  let v := u % 65536
  if v < 32768 then (v : Int) else (v : Int) - 65536

/-- The body of the first loop of `handleBytes`
(`src/pkg/deej/serial.go:247-257`) applied to one packed 16-bit channel
word: bit 11 is the mute-toggle flag; the low 11 bits are the value,
sign-extended via `| 0xF800` and an `int16` conversion when bit 10 is
set. -/
def decodeWord (packed : Nat) : ArduinoData :=
  let toggleMute : Bool := ((packed >>> 11) &&& 0x01) != 0
  let rawValue := packed &&& 0x07FF
  if rawValue &&& 0x0400 != 0 then
    ⟨toInt16 (rawValue ||| 0xF800), toggleMute⟩
  else
    ⟨(rawValue : Int), toggleMute⟩

/-- The first loop of `handleBytes` (`src/pkg/deej/serial.go:243-258`):
`for i := 0; i < len(bytes); i += 2` building
`packed := uint16(bytes[i])<<8 | uint16(bytes[i+1])`.  When `len(bytes)`
is odd the final iteration evaluates `bytes[i+1]` with `i+1 = len(bytes)`,
a Go index-out-of-range panic, modelled as `none`. -/
def decodeData : List Nat → Option (List ArduinoData)
  | [] => some []
  | [_] => none
  | b0 :: b1 :: rest =>
    (decodeData rest).map (fun tail => decodeWord ((b0 % 256) * 256 + b1 % 256) :: tail)

section DecodeLemmas

theorem toInt16_of_lt {u : Nat} (h1 : u < 65536) (h2 : 32768 ≤ u) :
    toInt16 u = (u : Int) - 65536 := by
  unfold toInt16
  rw [Nat.mod_eq_of_lt h1]
  simp [Nat.not_lt.mpr h2]

theorem lor_f800 {r : Nat} (h : r < 2048) : r ||| 63488 = r + 63488 := by
  have h2 : (2 : Nat) ^ 11 * 31 + r = 2 ^ 11 * 31 ||| r := by
    exact Nat.mul_add_lt_is_or h 31
  norm_num at h2
  rw [Nat.lor_comm, ← h2, Nat.add_comm]

theorem and_0x07FF (p : Nat) : p &&& 2047 = p % 2048 := by
  have h := Nat.and_pow_two_sub_one_eq_mod p 11
  norm_num at h
  exact h

theorem and_0x0400_of_lt {r : Nat} (h : r < 2048) :
    (r &&& 1024 != 0) = decide (1024 ≤ r) := by
  have h1 : r &&& 1024 = (r.testBit 10).toNat * 1024 := by
    have h2 := Nat.and_two_pow r 10
    norm_num at h2
    exact h2
  have h3 : r.testBit 10 = decide (r / 1024 % 2 = 1) := by
    have h4 : r.testBit 10 = decide (r / 2 ^ 10 % 2 = 1) := Nat.testBit_to_div_mod
    norm_num at h4
    exact h4
  rw [h1, h3]
  by_cases hc : 1024 ≤ r
  · have h5 : r / 1024 % 2 = 1 := by omega
    simp [h5, hc]
  · have h5 : r / 1024 % 2 = 0 := by omega
    simp [h5, hc]

theorem decodeWord_ToggleMute (p : Nat) :
    (decodeWord p).ToggleMute = ((p >>> 11) &&& 1 != 0) := by
  simp only [decodeWord]
  split <;> rfl

theorem decodeWord_Value (p : Nat) :
    (decodeWord p).Value =
      if 1024 ≤ p % 2048 then ((p % 2048 : Nat) : Int) - 2048
      else ((p % 2048 : Nat) : Int) := by
  have hlt : p % 2048 < 2048 := Nat.mod_lt _ (by norm_num)
  simp only [decodeWord, and_0x07FF]
  rw [and_0x0400_of_lt hlt]
  rw [lor_f800 hlt, toInt16_of_lt (by omega) (by omega)]
  by_cases hc : 1024 ≤ p % 2048
  · simp only [hc, decide_eq_true_eq, if_true, decide_eq_true]
    simp [hc]
    omega
  · simp [hc]

end DecodeLemmas

/-- C1 (counterexample): the claim's example "word `0x07FF` decodes to
value 1023" is false on the code: `0x07FF` has bit 10 set, so
`handleBytes` sign-extends it (`0x07FF | 0xF800 = 0xFFFF`) and decodes
the value -1, not 1023. -/
theorem C1_counterexample : (decodeWord 0x07FF).Value = -1 ∧ ¬((decodeWord 0x07FF).Value = 1023) := by
  decide

/-- C1 (amended): for every 2-byte big-endian channel word decoded in
binary mode, bit 11 yields toggleMute and bits 0-10 hold the value with
bit 10 triggering sign-extension (OR `0xF800`, read as signed 16-bit);
word `0x0000` decodes to toggleMute=false, value=0; `0x0800` to
toggleMute=true, value=0; `0x0400` to value=-1024; and `0x07FF` (bit 10
set) to value=-1 — not 1023 as the claim's example said; 1023 is encoded
by `0x03FF`. -/
theorem C1_binary_word_decoding (p : Nat) :
    ((decodeWord p).ToggleMute = true ↔ p / 2 ^ 11 % 2 = 1)
    ∧ (decodeWord p).Value =
        (if p % 2 ^ 11 < 2 ^ 10 then ((p % 2 ^ 11 : Nat) : Int)
         else ((p % 2 ^ 11 : Nat) : Int) - 2 ^ 11)
    ∧ decodeWord 0x0000 = ⟨0, false⟩
    ∧ decodeWord 0x0800 = ⟨0, true⟩
    ∧ decodeWord 0x0400 = ⟨-1024, false⟩
    ∧ decodeWord 0x07FF = ⟨-1, false⟩
    ∧ decodeWord 0x03FF = ⟨1023, false⟩ := by
  refine ⟨?_, ?_, by decide, by decide, by decide, by decide, by decide⟩
  · rw [decodeWord_ToggleMute, Nat.shiftRight_eq_div_pow, Nat.and_one_is_mod]
    have hm : p / 2 ^ 11 % 2 < 2 := Nat.mod_lt _ (by norm_num)
    constructor
    · intro h
      simp only [bne_iff_ne, ne_eq] at h
      omega
    · intro h
      simp only [bne_iff_ne, ne_eq]
      omega
  · rw [decodeWord_Value]
    norm_num
    rcases Nat.lt_or_ge (p % 2048) 1024 with hc | hc
    · rw [if_neg (by omega), if_pos hc]
    · rw [if_pos hc, if_neg (by omega)]

/-! ## Spec-modelled utility functions (`pkg/deej/util` is not among the sources) -/

/-- Modelled from the spec: `util.NormalizeScalar` lives in
`pkg/deej/util`, which is missing from the sources.  The spec says
"normalize it to an actual volume scalar between 0.0 and 1.0 with 2
points of precision" / "round to two-decimal precision", so the model
rounds to two decimal places. -/
def NormalizeScalar (v : ℚ) : ℚ := (round (v * 100) : ℚ) / 100

/-- Modelled from the spec: `util.SignificantlyDifferent` lives in
`pkg/deej/util`, which is missing from the sources.  The spec says "emit
a change only if `|new - old| > threshold` (debounce)"; the configured
`NoiseReductionLevel` is modelled as that numeric threshold. -/
def SignificantlyDifferent (old new threshold : ℚ) : Bool :=
  decide (|new - old| > threshold)

/-! ## Line-mode decoder (`src/unnamed/part_000`) -/

/-- Matcher core for `expectedLinePattern`: `k` counts the digits read in
the current number (the regex allows 1 to 4). -/
def matchFrom : Nat → List Char → Bool
  | _, [] => false
  | k, c :: cs =>
    if c.isDigit then (if k < 4 then matchFrom (k + 1) cs else false)
    else if c = '|' then (if 1 ≤ k then matchFrom 0 cs else false)
    else if c = '\r' then (1 ≤ k && cs == ['\n'])
    else false

/-- `expectedLinePattern` from `src/unnamed/part_000:44`: the anchored Go
regex `^\d{1,4}(\|\d{1,4})*\r\n$` (note: NO sign marker), as an
executable full-string matcher. -/
def expectedLinePattern (line : String) : Bool := matchFrom 0 line.data

/-- Matcher core for the pattern the claim C7 asserts, which also allows
an optional `-` before each number.  `signAllowed` is true exactly at the
start of a number. -/
def claimedFrom : Nat → Bool → List Char → Bool
  | _, _, [] => false
  | k, signAllowed, c :: cs =>
    if c = '-' then (if signAllowed && k == 0 then claimedFrom 0 false cs else false)
    else if c.isDigit then (if k < 4 then claimedFrom (k + 1) false cs else false)
    else if c = '|' then (if 1 ≤ k then claimedFrom 0 true cs else false)
    else if c = '\r' then (1 ≤ k && cs == ['\n'])
    else false

/-- The anchored pattern the claim asserts for line mode,
`^-?\d{1,4}(\|-?\d{1,4})*\r\n$`.  This is the (unused) pattern of the
binary variant `src/pkg/deej/serial.go:55`; the line-mode decoder
actually uses the sign-free `expectedLinePattern` above. -/
def claimedLinePattern (line : String) : Bool := claimedFrom 0 true line.data

def parseDigits (l : List Char) : Nat :=
  l.foldl (fun acc c => acc * 10 + (c.toNat - '0'.toNat)) 0

/-- `number, _ := strconv.Atoi(stringValue)` from
`src/unnamed/part_000:433`: the error is discarded, so malformed input
yields 0.  After the pattern match every part is a plain 1-4 digit run,
so only the digit branch is ever exercised. -/
def atoi (l : List Char) : Int :=
  if l ≠ [] ∧ l.all Char.isDigit then (parseDigits l : Int) else 0

/-- `strings.TrimSuffix(line, "\r\n")` from `src/unnamed/part_000:410`. -/
def trimSuffixCRLF (l : List Char) : List Char :=
  if l.reverse.take 2 = ['\n', '\r'] then l.dropLast.dropLast else l

/-- `SliderMoveEvent` from `src/unnamed/part_000`. -/
structure SliderMoveEvent where
  SliderID : Nat
  PercentValue : ℚ
deriving DecidableEq, Repr

/-- The configuration fields `handleLine` reads. -/
structure LineConfig where
  InvertSliders : Bool
  NoiseReductionLevel : ℚ
deriving DecidableEq

/-- The mutable fields of `SerialIO` that `handleLine` touches. -/
structure LineState where
  lastKnownNumSliders : Nat
  currentSliderPercentValues : List ℚ
deriving DecidableEq, Repr

/-- Lines 442-451 of `src/unnamed/part_000`: raw value to normalized
scalar (divide by 1023, normalize, optionally invert). -/
def normalizeLine (cfg : LineConfig) (number : Int) : ℚ :=
  let dirtyFloat : ℚ := (number : ℚ) / 1023
  let normalizedScalar := NormalizeScalar dirtyFloat
  if cfg.InvertSliders then 1 - normalizedScalar else normalizedScalar

/-- Lines 453-467 of `src/unnamed/part_000`: one slider's debounce step;
returns the updated stored value and whether a move event fires. -/
def lineSliderStep (cfg : LineConfig) (current : ℚ) (number : Int) : ℚ × Bool :=
  let normalizedScalar := normalizeLine cfg number
  if SignificantlyDifferent current normalizedScalar cfg.NoiseReductionLevel then
    (normalizedScalar, true)
  else (current, false)

/-- The per-slider loop of `handleLine` (`src/unnamed/part_000:430-468`),
walking the stored values and the parsed numbers in lockstep (the reset
in `handleLine` guarantees both lists have the same length). -/
def lineLoop (cfg : LineConfig) : Nat → List ℚ → List Int → List ℚ × List SliderMoveEvent
  | _, ps, [] => (ps, [])
  | _, [], _ => ([], [])
  | idx, p :: ps, n :: ns =>
    let step := lineSliderStep cfg p n
    let rest := lineLoop cfg (idx + 1) ps ns
    if step.2 then (step.1 :: rest.1, ⟨idx, step.1⟩ :: rest.2)
    else (step.1 :: rest.1, rest.2)

/-- Lines 417-426 of `src/unnamed/part_000`: on a channel-count change,
reallocate the stored values and reset every entry to the sentinel -1. -/
def resetIfNeededLine (s : LineState) (numSliders : Nat) : LineState :=
  if numSliders ≠ s.lastKnownNumSliders then
    ⟨numSliders, List.replicate numSliders (-1)⟩
  else s

/-- `handleLine` after the pattern match and split
(`src/unnamed/part_000:414-478`), acting on the parsed numbers: reset on
count change, drop the frame if the first number exceeds 1023 (the early
`return` happens before any per-slider write), else run the slider loop.
The returned event list is what is then delivered to every subscriber. -/
def handleLineCore (cfg : LineConfig) (s : LineState) (numbers : List Int) :
    LineState × List SliderMoveEvent :=
  let s1 := resetIfNeededLine s numbers.length
  match numbers with
  | [] => (s1, [])
  | n0 :: _ =>
    if n0 > 1023 then (s1, [])
    else
      let r := lineLoop cfg 0 s1.currentSliderPercentValues numbers
      (⟨s1.lastKnownNumSliders, r.1⟩, r.2)

/-- `handleLine` from `src/unnamed/part_000:401-478`: reject anything not
matching `expectedLinePattern`, else trim CRLF, split on `|`, parse and
process. -/
def handleLine (cfg : LineConfig) (s : LineState) (line : String) :
    LineState × List SliderMoveEvent :=
  if expectedLinePattern line then
    handleLineCore cfg s (((trimSuffixCRLF line.data).splitOn '|').map atoi)
  else (s, [])

/-! ## Binary-mode state tracking (`src/pkg/deej/serial.go`) -/

/-- `VolumeData` from `src/pkg/deej/serial.go`. -/
structure VolumeData where
  Value : ℚ
  Mute : Bool
deriving DecidableEq, Repr

/-- `SliderEvent` from `src/pkg/deej/serial.go`. -/
structure SliderEvent where
  SliderID : Nat
  PercentValue : ℚ
  ToggleMute : Bool
deriving DecidableEq, Repr

/-- The configuration fields `handleBytes` reads. -/
structure BytesConfig where
  InvertSliders : Bool
  NoiseReductionLevel : ℚ
  AdditiveIndices : List Nat
deriving DecidableEq

/-- The mutable fields of `SerialIO` that `handleBytes` touches. -/
structure BytesState where
  lastKnownNumSliders : Nat
  currentVolumeDatas : List VolumeData
deriving DecidableEq, Repr

/-- Lines 289-315 of `src/pkg/deej/serial.go`: raw value to normalized
scalar — divide by 1023 (note: NO clamping of negative binary readings),
normalize, optionally invert, then the additive-index adjustment against
the externally resolved current volume (`sio.deej.sessions.getCurrentVolume`,
passed here as the collaborator function `getCurrentVolume`). -/
def normalizeBytes (cfg : BytesConfig) (getCurrentVolume : Nat → ℚ)
    (sliderIdx : Nat) (number : Int) : ℚ :=
  let dirtyFloat : ℚ := (number : ℚ) / 1023
  let n1 := NormalizeScalar dirtyFloat
  let n2 := if cfg.InvertSliders then 1 - n1 else n1
  if sliderIdx ∈ cfg.AdditiveIndices then
    let fv0 := getCurrentVolume sliderIdx
    if number ≠ 0 then
      let fv1 := fv0 + n2
      let fv2 := if fv1 < 0 then 0 else fv1
      if fv2 > 1 then 1 else fv2
    else fv0
  else n2

/-- Lines 317-335 of `src/pkg/deej/serial.go`: one slider's step.  An
event fires when the value change is significant OR the reading's
toggle-mute flag is set; whenever it fires, the stored value is updated
and the stored `Mute` boolean is flipped. -/
def bytesSliderStep (cfg : BytesConfig) (getCurrentVolume : Nat → ℚ)
    (sliderIdx : Nat) (vd : VolumeData) (d : ArduinoData) :
    VolumeData × Option SliderEvent :=
  let normalizedScalar := normalizeBytes cfg getCurrentVolume sliderIdx d.Value
  if SignificantlyDifferent vd.Value normalizedScalar cfg.NoiseReductionLevel
      || d.ToggleMute then
    (⟨normalizedScalar, !vd.Mute⟩, some ⟨sliderIdx, normalizedScalar, d.ToggleMute⟩)
  else (vd, none)

/-- The per-slider loop of `handleBytes` (`src/pkg/deej/serial.go:278-336`). -/
def bytesLoop (cfg : BytesConfig) (getCurrentVolume : Nat → ℚ) :
    Nat → List VolumeData → List ArduinoData → List VolumeData × List SliderEvent
  | _, vs, [] => (vs, [])
  | _, [], _ => ([], [])
  | idx, v :: vs, d :: ds =>
    let step := bytesSliderStep cfg getCurrentVolume idx v d
    let rest := bytesLoop cfg getCurrentVolume (idx + 1) vs ds
    (step.1 :: rest.1,
      match step.2 with
      | some e => e :: rest.2
      | none => rest.2)

/-- Lines 265-274 of `src/pkg/deej/serial.go`: on a channel-count change,
reallocate (`make` zero-initializes `Mute` to false) and set every value
to the sentinel -1. -/
def resetIfNeededBytes (s : BytesState) (numSliders : Nat) : BytesState :=
  if numSliders ≠ s.lastKnownNumSliders then
    ⟨numSliders, List.replicate numSliders ⟨-1, false⟩⟩
  else s

/-- `handleBytes` after decoding (`src/pkg/deej/serial.go:262-346`). -/
def handleBytesCore (cfg : BytesConfig) (getCurrentVolume : Nat → ℚ)
    (s : BytesState) (data : List ArduinoData) : BytesState × List SliderEvent :=
  let s1 := resetIfNeededBytes s data.length
  match data with
  | [] => (s1, [])
  | d0 :: _ =>
    if d0.Value > 1023 then (s1, [])
    else
      let r := bytesLoop cfg getCurrentVolume 0 s1.currentVolumeDatas data
      (⟨s1.lastKnownNumSliders, r.1⟩, r.2)

/-- `handleBytes` from `src/pkg/deej/serial.go:236-346`: decode the
2-byte words (odd-length input panics on `bytes[i+1]`, hence `none`),
then track state and produce the events delivered to every subscriber. -/
def handleBytes (cfg : BytesConfig) (getCurrentVolume : Nat → ℚ)
    (s : BytesState) (bytes : List Nat) : Option (BytesState × List SliderEvent) :=
  (decodeData bytes).map (handleBytesCore cfg getCurrentVolume s)

/-! ## C2: odd-length binary frames -/

theorem decodeData_map_length (bytes : List Nat) :
    (decodeData bytes).map List.length =
      if bytes.length % 2 = 1 then none else some (bytes.length / 2) := by
  induction bytes using decodeData.induct with
  | case1 => simp [decodeData]
  | case2 b => simp [decodeData]
  | case3 b0 b1 rest ih =>
    have hlen2 : (b0 :: b1 :: rest).length = rest.length + 2 := by simp
    cases h : decodeData rest with
    | none =>
      have hodd : rest.length % 2 = 1 := by
        by_contra hco
        rw [h] at ih
        rw [if_neg hco] at ih
        simp at ih
      simp only [decodeData, h, Option.map_none']
      rw [hlen2, if_pos (by omega)]
    | some l =>
      have heven : ¬ rest.length % 2 = 1 := by
        intro hco
        rw [h] at ih
        rw [if_pos hco] at ih
        simp at ih
      have hl : l.length = rest.length / 2 := by
        rw [h] at ih
        rw [if_neg heven] at ih
        simpa using ih
      simp only [decodeData, h, Option.map_some', List.length_cons]
      rw [if_neg (by omega)]
      simp only [Option.some.injEq]
      omega

/-- C2 (code evaluated at the failing input): an odd-length binary frame
does NOT decode over its maximal even prefix — the loop condition
`i < len(bytes)` in `src/pkg/deej/serial.go:243` admits `i = len-1`, and
`bytes[i+1]` then indexes out of bounds, a Go runtime panic (modelled as
`none`).  Concretely, the 3-byte frame `[0x04, 0x00, 0x07]` produces no
readings at all rather than the claimed single reading; even-length
frames produce `len/2` readings as claimed. -/
theorem C2_odd_frame_out_of_bounds :
    decodeData [4, 0, 7] = none
    ∧ decodeData [4, 0] = some [⟨-1024, false⟩]
    ∧ ∀ bytes : List Nat,
        (decodeData bytes).map List.length =
          if bytes.length % 2 = 1 then none else some (bytes.length / 2) :=
  ⟨by decide, by decide, decodeData_map_length⟩

/-! ## Frame-reading loops (`readBytes` / `readLine`) and `Start` -/

/-- Outcome of one read-loop iteration of the binary variant. -/
inductive ReadOutcome where
  | emit (unit : List Nat)
  | terminate
  | panic
deriving DecidableEq, Repr

/-- One iteration of the read loop of `readBytes`
(`src/pkg/deej/serial.go:214-231`), given the verbosity flag and the
result of `reader.ReadBytes('\n')` (the bytes read before the
error/delimiter, plus an error flag).  NOTE: the `return` sits INSIDE
the `Verbose()` branch, so with verbosity off a read error falls through
to `ch <- bytes[:len(bytes)-1]`, which panics when `bytes` is empty
(slice bound -1) and otherwise emits the partial unit. -/
def readBytesStep (verbose : Bool) (bytes : List Nat) (err : Bool) : ReadOutcome :=
  if err && verbose then .terminate
  else if bytes.isEmpty then .panic
  else .emit bytes.dropLast

/-- Outcome of one read-loop iteration of the line variant. -/
inductive LineReadOutcome where
  | emit (line : String)
  | terminate
deriving DecidableEq, Repr

/-- One iteration of the read loop of `readLine`
(`src/unnamed/part_000:376-396`): on any read error the loop returns
(after an optional verbose log), emitting nothing; otherwise it delivers
the line. -/
def readLineStep (verbose : Bool) (line : String) (err : Bool) : LineReadOutcome :=
  if err then .terminate else .emit line

/-- `serial.OpenOptions` as populated by `Start`. -/
structure ConnOptions where
  PortName : String
  BaudRate : Nat
  DataBits : Nat
  StopBits : Nat
  MinimumReadSize : Nat
deriving DecidableEq, Repr

inductive StartError where
  | alreadyConnected
  | openFailed
deriving DecidableEq, Repr

/-- The connection fields of `SerialIO` that `Start` touches (both
variants, `src/pkg/deej/serial.go:80-138` and
`src/unnamed/part_000:69-132`); `conn` holds an abstract open handle. -/
structure SerialIOState where
  connected : Bool
  conn : Option Nat
  connOptions : ConnOptions
deriving DecidableEq, Repr

/-- `Start`: if already connected, return the
`"serial: connection already active"` error at once — before any
assignment to `connOptions`, `conn` or `connected`.  Otherwise store the
new options, attempt the open (its external outcome passed in as
`openResult`), and either return the open failure (options already
overwritten) or record the connection. -/
def Start (s : SerialIOState) (newOpts : ConnOptions) (openResult : Option Nat) :
    SerialIOState × Option StartError :=
  if s.connected then (s, some .alreadyConnected)
  else
    let s1 := { s with connOptions := newOpts }
    match openResult with
    | none => (s1, some .openFailed)
    | some handle => ({ s1 with conn := some handle, connected := true }, none)

/-- C9 (confirmed): calling `Start` while a connection is active returns
the AlreadyConnected error and leaves the state — open handle, connected
flag, connection options — untouched. -/
theorem C9_start_while_connected (s : SerialIOState) (newOpts : ConnOptions)
    (openResult : Option Nat) (h : s.connected = true) :
    Start s newOpts openResult = (s, some StartError.alreadyConnected) := by
  simp [Start, h]

/-- Witness for C9 at a concrete connected state. -/
theorem C9_start_while_connected_witness :
    (⟨true, some 7, ⟨"COM3", 9600, 8, 1, 1⟩⟩ : SerialIOState).connected = true
    ∧ Start ⟨true, some 7, ⟨"COM3", 9600, 8, 1, 1⟩⟩ ⟨"COM4", 115200, 8, 1, 0⟩ none
        = (⟨true, some 7, ⟨"COM3", 9600, 8, 1, 1⟩⟩, some StartError.alreadyConnected) :=
  ⟨rfl, C9_start_while_connected _ _ _ rfl⟩

/-- C6 (code evaluated at the failing input): the line variant's read
loop does terminate silently on every read error regardless of
verbosity, but the binary variant's `readBytes` has its `return` inside
the `Verbose()` branch: with verbosity off, a read error that returned no
partial bytes falls through to `bytes[:len(bytes)-1]` on an empty slice —
an out-of-range panic — and with partial bytes it emits a unit into the
pipeline instead of terminating. -/
theorem C6_read_error_behavior :
    (∀ (verbose : Bool) (line : String), readLineStep verbose line true = .terminate)
    ∧ readBytesStep true [] true = .terminate
    ∧ readBytesStep false [] true = .panic
    ∧ readBytesStep false [65, 10] true = .emit [65] :=
  ⟨fun _ _ => rfl, by decide, by decide, by decide⟩

/-! ## Bounds of the normalization pipeline -/

theorem NormalizeScalar_bounds {q : ℚ} (h0 : 0 ≤ q) (h1 : q ≤ 1) :
    0 ≤ NormalizeScalar q ∧ NormalizeScalar q ≤ 1 := by
  unfold NormalizeScalar
  rw [round_eq]
  constructor
  · have hf : (0 : ℤ) ≤ ⌊q * 100 + 1 / 2⌋ := Int.le_floor.mpr (by push_cast; linarith)
    apply div_nonneg _ (by norm_num)
    exact_mod_cast hf
  · have hf : ⌊q * 100 + 1 / 2⌋ ≤ 100 := by
      have hlt : ⌊q * 100 + 1 / 2⌋ < 101 := Int.floor_lt.mpr (by push_cast; linarith)
      omega
    rw [div_le_one (by norm_num)]
    exact_mod_cast hf

theorem normalizeLine_bounds (cfg : LineConfig) {n : Int} (h0 : 0 ≤ n) (h1 : n ≤ 1023) :
    0 ≤ normalizeLine cfg n ∧ normalizeLine cfg n ≤ 1 := by
  unfold normalizeLine
  have hd0 : (0 : ℚ) ≤ (n : ℚ) / 1023 := by
    apply div_nonneg _ (by norm_num)
    exact_mod_cast h0
  have hd1 : (n : ℚ) / 1023 ≤ 1 := by
    rw [div_le_one (by norm_num)]
    exact_mod_cast h1
  have hb := NormalizeScalar_bounds hd0 hd1
  by_cases hi : cfg.InvertSliders <;> simp [hi] <;> constructor <;> linarith [hb.1, hb.2]

theorem lineSliderStep_emitted (cfg : LineConfig) (p : ℚ) (n : Int)
    (h : (lineSliderStep cfg p n).2 = true) :
    (lineSliderStep cfg p n).1 = normalizeLine cfg n := by
  simp only [lineSliderStep] at h ⊢
  by_cases hs : SignificantlyDifferent p (normalizeLine cfg n) cfg.NoiseReductionLevel = true
  · simp [hs]
  · simp [hs] at h

/-! ## C7: the line-mode grammar -/

theorem matchFrom_imp_claimedFrom (l : List Char) :
    ∀ (k : Nat) (b : Bool), matchFrom k l = true → claimedFrom k b l = true := by
  induction l with
  | nil =>
    intro k b h
    exact absurd h (by simp [matchFrom])
  | cons c cs ih =>
    intro k b h
    unfold matchFrom at h
    unfold claimedFrom
    by_cases hd : c.isDigit = true
    · have hne : ¬ c = '-' := by
        intro he
        rw [he] at hd
        exact absurd hd (by decide)
      rw [if_pos hd] at h
      rw [if_neg hne, if_pos hd]
      by_cases hk : k < 4
      · rw [if_pos hk] at h ⊢
        exact ih _ _ h
      · rw [if_neg hk] at h
        exact absurd h (by simp)
    · rw [if_neg hd] at h
      by_cases hm : c = '-'
      · rw [hm] at h
        rw [if_neg (by decide : ¬ ('-' : Char) = '|')] at h
        rw [if_neg (by decide : ¬ ('-' : Char) = '\r')] at h
        exact absurd h (by simp)
      · rw [if_neg hm, if_neg hd]
        by_cases hp : c = '|'
        · rw [if_pos hp] at h ⊢
          by_cases hk : 1 ≤ k
          · rw [if_pos hk] at h ⊢
            exact ih _ _ h
          · rw [if_neg hk] at h
            exact absurd h (by simp)
        · rw [if_neg hp] at h ⊢
          by_cases hr : c = '\r'
          · rw [if_pos hr] at h ⊢
            exact h
          · rw [if_neg hr] at h
            exact absurd h (by simp)

/-- C7 (counterexample): the unit `"-1\r\n"` matches the claim's pattern
`^-?\d{1,4}(\|-?\d{1,4})*\r\n$`, yet the line-mode decoder — whose
`expectedLinePattern` (`src/unnamed/part_000:44`) has no sign marker —
rejects it: `handleLine` discards it with no event and no state change,
so "accepted iff it matches the claimed pattern" is false. -/
theorem C7_counterexample :
    claimedLinePattern "-1\r\n" = true
    ∧ expectedLinePattern "-1\r\n" = false
    ∧ handleLine ⟨false, 1/40⟩ ⟨1, [1/2]⟩ "-1\r\n" = (⟨1, [1/2]⟩, []) := by
  refine ⟨by decide, by decide, ?_⟩
  have h : expectedLinePattern "-1\r\n" = false := by decide
  simp [handleLine, h]

/-- C7 (amended): a line-mode unit is accepted by the decoder iff it
matches the sign-free pattern `^\d{1,4}(\|\d{1,4})*\r\n$`
(`expectedLinePattern`); every non-matching unit is discarded with no
event emitted and no state change.  The claim's pattern
`^-?\d{1,4}(\|-?\d{1,4})*\r\n$` belongs to the binary variant (where it
is unused) and strictly contains the implemented one: everything the
decoder accepts matches it, but not conversely. -/
theorem C7_line_grammar (cfg : LineConfig) (s : LineState) (line : String) :
    (expectedLinePattern line = false → handleLine cfg s line = (s, []))
    ∧ (expectedLinePattern line = true → claimedLinePattern line = true) := by
  constructor
  · intro h
    simp [handleLine, h]
  · intro h
    exact matchFrom_imp_claimedFrom _ 0 true h

/-- Witness for C7 at concrete inputs: a garbage unit is discarded, and an
accepted unit also matches the claimed pattern. -/
theorem C7_line_grammar_witness :
    expectedLinePattern "abc\r\n" = false
    ∧ handleLine ⟨false, 1/40⟩ ⟨0, []⟩ "abc\r\n" = (⟨0, []⟩, [])
    ∧ expectedLinePattern "12|345\r\n" = true
    ∧ claimedLinePattern "12|345\r\n" = true := by
  refine ⟨by decide, ?_, by decide, ?_⟩
  · exact (C7_line_grammar ⟨false, 1/40⟩ ⟨0, []⟩ "abc\r\n").1 (by decide)
  · exact (C7_line_grammar ⟨false, 1/40⟩ ⟨0, []⟩ "12|345\r\n").2 (by decide)

/-! ## Concrete evaluations of the normalization pipeline -/

theorem NS_neg1024 : NormalizeScalar ((-1024 : ℚ) / 1023) = -1 := by
  unfold NormalizeScalar
  have h : round ((-1024 : ℚ) / 1023 * 100) = -100 := by
    rw [round_eq]
    norm_num [Int.floor_eq_iff]
  rw [h]
  norm_num

theorem NS_neg512 : NormalizeScalar ((-512 : ℚ) / 1023) = -1/2 := by
  unfold NormalizeScalar
  have h : round ((-512 : ℚ) / 1023 * 100) = -50 := by
    rw [round_eq]
    norm_num [Int.floor_eq_iff]
  rw [h]
  norm_num

theorem NS_zero : NormalizeScalar ((0 : ℚ) / 1023) = 0 := by
  unfold NormalizeScalar
  have h : round ((0 : ℚ) / 1023 * 100) = 0 := by
    rw [round_eq]
    norm_num [Int.floor_eq_iff]
  rw [h]
  norm_num

theorem NS_one : NormalizeScalar ((1023 : ℚ) / 1023) = 1 := by
  unfold NormalizeScalar
  have h : round ((1023 : ℚ) / 1023 * 100) = 100 := by
    rw [round_eq]
    norm_num [Int.floor_eq_iff]
  rw [h]
  norm_num

theorem normalizeBytes_plain (t : ℚ) (g : Nat → ℚ) (idx : Nat) (n : Int) :
    normalizeBytes ⟨false, t, []⟩ g idx n = NormalizeScalar ((n : ℚ) / 1023) := by
  unfold normalizeBytes
  simp

/-! ## C3: corrupted-first-value frames -/

/-- C3 (counterexample): processing the claim's own example frame
`"4558|925|41"` from a fresh tracker does drop the events, but it is NOT
free of state mutation: the channel-count reset
(`src/unnamed/part_000:417-426`) runs before the first-value check, so
the frame leaves the tracker with `lastKnownNumSliders = 3` and three
freshly allocated sentinel baselines instead of its previous state. -/
theorem C3_counterexample :
    handleLine ⟨false, 1/40⟩ ⟨0, []⟩ "4558|925|41\r\n" = (⟨3, [-1, -1, -1]⟩, [])
    ∧ (⟨3, [-1, -1, -1]⟩ : LineState) ≠ ⟨0, []⟩ := by
  constructor
  · decide
  · decide

/-- C3 (amended): a frame whose first parsed value is greater than 1023
(a signed comparison — the binary-mode value -1024, the only decodable
value whose magnitude exceeds 1023, is NOT caught) is dropped before any
per-channel processing: no events are emitted and no per-channel value is
written — but the channel-count reset has already run, so a frame that
also changes the channel count does mutate `lastKnownNumSliders` and
reallocates the baselines.  Both variants behave alike; the final
conjunct shows the binary variant emitting an event for first value
-1024. -/
theorem C3_first_value_drop (cfg : LineConfig) (s : LineState)
    (n0 : Int) (ns : List Int) (h : n0 > 1023) :
    handleLineCore cfg s (n0 :: ns) = (resetIfNeededLine s (n0 :: ns).length, [])
    ∧ (∀ (cfgB : BytesConfig) (g : Nat → ℚ) (sB : BytesState)
          (d0 : ArduinoData) (ds : List ArduinoData), d0.Value > 1023 →
        handleBytesCore cfgB g sB (d0 :: ds) = (resetIfNeededBytes sB (d0 :: ds).length, []))
    ∧ handleBytesCore ⟨false, 1/40, []⟩ (fun _ => 0) ⟨1, [⟨0, false⟩]⟩ [⟨-1024, false⟩]
        = (⟨1, [⟨-1, true⟩]⟩, [⟨0, -1, false⟩]) := by
  refine ⟨?_, ?_, ?_⟩
  · simp [handleLineCore, h]
  · intro cfgB g sB d0 ds h0
    simp [handleBytesCore, h0]
  · have hsig : SignificantlyDifferent 0 (-1) ((40 : ℚ)⁻¹) = true := by
      unfold SignificantlyDifferent
      norm_num
    simp [handleBytesCore, resetIfNeededBytes, bytesLoop, bytesSliderStep,
      normalizeBytes_plain, NS_neg1024]
    rw [if_pos hsig]
    simp

/-- Witness for C3 at a concrete dropped frame. -/
theorem C3_first_value_drop_witness :
    (1024 : Int) > 1023
    ∧ handleLineCore ⟨false, 1/40⟩ ⟨1, [1/2]⟩ [1024]
        = (resetIfNeededLine ⟨1, [1/2]⟩ 1, []) :=
  ⟨by decide, (C3_first_value_drop ⟨false, 1/40⟩ ⟨1, [1/2]⟩ 1024 [] (by decide)).1⟩

/-! ## C4 and C10: debounce threshold and mute-toggle semantics -/

/-- C4 (confirmed): a change event is emitted for a channel iff
`|new - old| > threshold` — except that in the binary variant a reading
with the toggleMute flag set always produces an event, and that event
flips the stored `Mute` boolean (toggle, not absolute set). -/
theorem C4_debounce_and_mute_toggle (cfg : LineConfig) (current : ℚ) (number : Int)
    (cfgB : BytesConfig) (g : Nat → ℚ) (idx : Nat) (vd : VolumeData) (d : ArduinoData) :
    ((lineSliderStep cfg current number).2 = true
        ↔ |normalizeLine cfg number - current| > cfg.NoiseReductionLevel)
    ∧ ((bytesSliderStep cfgB g idx vd d).2.isSome = true
        ↔ (|normalizeBytes cfgB g idx d.Value - vd.Value| > cfgB.NoiseReductionLevel
            ∨ d.ToggleMute = true))
    ∧ (d.ToggleMute = true →
        (bytesSliderStep cfgB g idx vd d).2
            = some ⟨idx, normalizeBytes cfgB g idx d.Value, true⟩
        ∧ (bytesSliderStep cfgB g idx vd d).1.Mute = !vd.Mute) := by
  refine ⟨?_, ?_, ?_⟩
  · unfold lineSliderStep SignificantlyDifferent
    by_cases hs : |normalizeLine cfg number - current| > cfg.NoiseReductionLevel
    · simp [hs]
    · simp [hs]
  · unfold bytesSliderStep SignificantlyDifferent
    by_cases hs : |normalizeBytes cfgB g idx d.Value - vd.Value| > cfgB.NoiseReductionLevel
    · simp [hs]
    · cases hm : d.ToggleMute <;> simp [hs, hm]
  · intro ht
    unfold bytesSliderStep
    simp [ht]

/-- Witness for C4: value 1023 against baseline 0 clears the threshold in
line mode; in binary mode a toggle-flagged reading with no value change
still produces an event and flips the stored mute flag. -/
theorem C4_debounce_and_mute_toggle_witness :
    |normalizeLine ⟨false, 1/40⟩ 1023 - 0| > (1/40 : ℚ)
    ∧ (lineSliderStep ⟨false, 1/40⟩ 0 1023).2 = true
    ∧ (bytesSliderStep ⟨false, 1/40, []⟩ (fun _ => 0) 0 ⟨0, false⟩ ⟨0, true⟩).2
        = some ⟨0, normalizeBytes ⟨false, 1/40, []⟩ (fun _ => 0) 0 0, true⟩
    ∧ (bytesSliderStep ⟨false, 1/40, []⟩ (fun _ => 0) 0 ⟨0, false⟩ ⟨0, true⟩).1.Mute
        = !false := by
  have hn : normalizeLine ⟨false, 1/40⟩ 1023 = 1 := by
    unfold normalizeLine
    have hc : (((1023 : Int) : ℚ)) / 1023 = (1023 : ℚ) / 1023 := by norm_num
    simp only [hc, NS_one]
    simp
  have hab : |normalizeLine ⟨false, 1/40⟩ 1023 - 0| > (1/40 : ℚ) := by
    rw [hn]
    norm_num
  have h := C4_debounce_and_mute_toggle ⟨false, 1/40⟩ 0 1023
    ⟨false, 1/40, []⟩ (fun _ => 0) 0 ⟨0, false⟩ ⟨0, true⟩
  exact ⟨hab, h.1.mpr hab, (h.2.2 rfl).1, (h.2.2 rfl).2⟩

/-- C10 (confirmed): in the binary variant, EVERY emitted event — also one
triggered purely by a significant value change with the toggleMute flag
false — flips the stored `Mute` boolean
(`src/pkg/deej/serial.go:324` runs whenever line 320's condition holds). -/
theorem C10_any_event_flips_mute (cfgB : BytesConfig) (g : Nat → ℚ) (idx : Nat)
    (vd : VolumeData) (d : ArduinoData)
    (h : (bytesSliderStep cfgB g idx vd d).2.isSome = true) :
    (bytesSliderStep cfgB g idx vd d).1.Mute = !vd.Mute := by
  unfold bytesSliderStep at h ⊢
  by_cases hc : (SignificantlyDifferent vd.Value (normalizeBytes cfgB g idx d.Value)
      cfgB.NoiseReductionLevel || d.ToggleMute) = true
  · simp [hc]
  · simp [hc] at h

/-- Witness for C10: a pure value change (toggleMute false) emits an event
and still flips the stored mute flag. -/
theorem C10_any_event_flips_mute_witness :
    (bytesSliderStep ⟨false, 1/40, []⟩ (fun _ => 0) 0 ⟨0, false⟩ ⟨1023, false⟩).2.isSome = true
    ∧ (bytesSliderStep ⟨false, 1/40, []⟩ (fun _ => 0) 0 ⟨0, false⟩ ⟨1023, false⟩).1.Mute
        = !false := by
  have hn : normalizeBytes ⟨false, 1/40, []⟩ (fun _ => 0) 0
      ((⟨1023, false⟩ : ArduinoData).Value) = 1 := by
    rw [normalizeBytes_plain]
    have hc : ((((⟨1023, false⟩ : ArduinoData).Value : Int) : ℚ)) / 1023
        = (1023 : ℚ) / 1023 := by norm_num
    rw [hc, NS_one]
  have hsome : (bytesSliderStep ⟨false, 1/40, []⟩ (fun _ => 0) 0
      ⟨0, false⟩ ⟨1023, false⟩).2.isSome = true := by
    unfold bytesSliderStep
    rw [hn]
    have hs : SignificantlyDifferent (0 : ℚ) 1 ((40 : ℚ)⁻¹) = true := by
      unfold SignificantlyDifferent
      norm_num
    simp [hs]
  exact ⟨hsome, C10_any_event_flips_mute _ _ _ _ _ hsome⟩

/-! ## C5: channel-count change forces a full resync -/

theorem lineLoop_replicate (cfg : LineConfig) (hthr : cfg.NoiseReductionLevel < 1) :
    ∀ (ns : List Int) (idx : Nat), (∀ n ∈ ns, 0 ≤ n ∧ n ≤ 1023) →
      (lineLoop cfg idx (List.replicate ns.length (-1)) ns).2.map SliderMoveEvent.SliderID
        = List.range' idx ns.length := by
  intro ns
  induction ns with
  | nil =>
    intro idx h
    simp [lineLoop]
  | cons n ns ih =>
    intro idx h
    have hn := h n (List.mem_cons_self n ns)
    have hb := normalizeLine_bounds cfg hn.1 hn.2
    have hsig : SignificantlyDifferent (-1) (normalizeLine cfg n)
        cfg.NoiseReductionLevel = true := by
      unfold SignificantlyDifferent
      apply decide_eq_true
      have he : normalizeLine cfg n - (-1) = normalizeLine cfg n + 1 := by ring
      rw [he, abs_of_nonneg (by linarith [hb.1])]
      linarith [hb.1]
    have hstep : lineSliderStep cfg (-1) n = (normalizeLine cfg n, true) := by
      unfold lineSliderStep
      simp [hsig]
    rw [List.length_cons, List.replicate_succ]
    simp only [lineLoop, hstep]
    simp only [if_true]
    rw [List.range'_succ]
    simp only [List.map_cons]
    rw [ih (idx + 1) (fun m hm => h m (List.mem_cons_of_mem n hm))]

/-- C5 (amended): on a channel-count change the tracker reallocates to the
new length with every baseline set to the sentinel -1.0 (and muted=false
in the binary variant), and that frame produces exactly one event per
channel in ascending index order — for the line-mode decoder, provided
the configured threshold is below 1 and the values are in the nominal
range 0-1023 (NOT for arbitrary thresholds or out-of-range binary
readings: a threshold ≥ 1, or a binary reading near the sentinel such as
-1024, suppresses the forced event; see the counterexample). -/
theorem C5_count_change_reset (cfg : LineConfig) (s : LineState) (numbers : List Int)
    (hcount : numbers.length ≠ s.lastKnownNumSliders)
    (hvals : ∀ n ∈ numbers, 0 ≤ n ∧ n ≤ 1023)
    (hthr : cfg.NoiseReductionLevel < 1) :
    resetIfNeededLine s numbers.length
        = ⟨numbers.length, List.replicate numbers.length (-1)⟩
    ∧ (handleLineCore cfg s numbers).1.lastKnownNumSliders = numbers.length
    ∧ (handleLineCore cfg s numbers).2.map SliderMoveEvent.SliderID
        = List.range numbers.length
    ∧ (∀ (sB : BytesState) (m : Nat), m ≠ sB.lastKnownNumSliders →
        resetIfNeededBytes sB m = ⟨m, List.replicate m ⟨-1, false⟩⟩) := by
  have hreset : resetIfNeededLine s numbers.length
      = ⟨numbers.length, List.replicate numbers.length (-1)⟩ := by
    unfold resetIfNeededLine
    rw [if_pos hcount]
  refine ⟨hreset, ?_, ?_, ?_⟩
  · cases numbers with
    | nil =>
      simp only [handleLineCore, hreset]
    | cons n0 ns =>
      have h0 := hvals n0 (List.mem_cons_self n0 ns)
      simp only [handleLineCore, hreset]
      rw [if_neg (by omega : ¬ n0 > 1023)]
  · cases numbers with
    | nil =>
      simp [handleLineCore]
    | cons n0 ns =>
      have h0 := hvals n0 (List.mem_cons_self n0 ns)
      simp only [handleLineCore, hreset]
      rw [if_neg (by omega : ¬ n0 > 1023)]
      rw [List.range_eq_range']
      exact lineLoop_replicate cfg hthr (n0 :: ns) 0 hvals
  · intro sB m hm
    unfold resetIfNeededBytes
    rw [if_pos hm]

/-- C5 (counterexample): "the next processed frame produces exactly one
event per channel regardless of the configured noise threshold" is false.
With the ordinary threshold 1/40 (0.025), the binary frame `[0x04, 0x00]`
arriving after a channel-count change (0 -> 1) normalizes its single
reading -1024 to -1.0 — exactly the sentinel — so NO event at all is
produced for that channel. -/
theorem C5_counterexample :
    handleBytes ⟨false, 1/40, []⟩ (fun _ => 0) ⟨0, []⟩ [4, 0]
      = some (⟨1, [⟨-1, false⟩]⟩, [])
    ∧ ¬ ((handleBytes ⟨false, 1/40, []⟩ (fun _ => 0) ⟨0, []⟩ [4, 0]).map
          (fun r => r.2.map SliderEvent.SliderID) = some (List.range 1)) := by
  have hd : decodeData [4, 0] = some [⟨-1024, false⟩] := by decide
  have hn : normalizeBytes ⟨false, 1/40, []⟩ (fun _ => 0) 0
      ((⟨-1024, false⟩ : ArduinoData).Value) = -1 := by
    rw [normalizeBytes_plain]
    have hc : ((((⟨-1024, false⟩ : ArduinoData).Value : Int) : ℚ)) / 1023
        = (-1024 : ℚ) / 1023 := by norm_num
    rw [hc, NS_neg1024]
  have hstep : bytesSliderStep ⟨false, 1/40, []⟩ (fun _ => 0) 0
      ⟨-1, false⟩ ⟨-1024, false⟩ = (⟨-1, false⟩, none) := by
    unfold bytesSliderStep
    rw [hn]
    have hs : SignificantlyDifferent (-1 : ℚ) (-1) ((40 : ℚ)⁻¹) = false := by
      unfold SignificantlyDifferent
      norm_num
    simp [hs]
  have hmain : handleBytes ⟨false, 1/40, []⟩ (fun _ => 0) ⟨0, []⟩ [4, 0]
      = some (⟨1, [⟨-1, false⟩]⟩, []) := by
    unfold handleBytes
    rw [hd]
    simp only [Option.map_some']
    have hreset : resetIfNeededBytes ⟨0, []⟩ ([⟨-1024, false⟩] : List ArduinoData).length
        = ⟨1, [⟨-1, false⟩]⟩ := by
      unfold resetIfNeededBytes
      norm_num
    simp only [handleBytesCore, hreset]
    rw [if_neg (by norm_num : ¬ ((⟨-1024, false⟩ : ArduinoData).Value > 1023))]
    simp only [bytesLoop, hstep]
  refine ⟨hmain, ?_⟩
  rw [hmain]
  simp [List.range_succ]

/-- Witness for C5: the line-mode frame `[0, 1023]` arriving after a
count change (0 -> 2 channels) produces exactly one event per channel. -/
theorem C5_count_change_reset_witness :
    ([0, 1023] : List Int).length ≠ (⟨0, []⟩ : LineState).lastKnownNumSliders
    ∧ resetIfNeededLine ⟨0, []⟩ ([0, 1023] : List Int).length
        = ⟨2, List.replicate 2 (-1)⟩
    ∧ (handleLineCore ⟨false, 1/40⟩ ⟨0, []⟩ [0, 1023]).2.map SliderMoveEvent.SliderID
        = List.range 2 := by
  have h := C5_count_change_reset ⟨false, 1/40⟩ ⟨0, []⟩ [0, 1023]
    (by decide) (by decide) (by norm_num)
  exact ⟨by decide, h.1, h.2.2.1⟩

/-! ## C8: range of emitted percent values -/

theorem lineLoop_event_values (cfg : LineConfig) :
    ∀ (ns : List Int) (ps : List ℚ) (idx : Nat),
      ∀ e ∈ (lineLoop cfg idx ps ns).2, ∃ n ∈ ns, e.PercentValue = normalizeLine cfg n := by
  intro ns
  induction ns with
  | nil =>
    intro ps idx e he
    cases ps <;> simp [lineLoop] at he
  | cons n ns ih =>
    intro ps idx e he
    cases ps with
    | nil => simp [lineLoop] at he
    | cons p ps =>
      by_cases hstep : (lineSliderStep cfg p n).2 = true
      · have hv := lineSliderStep_emitted cfg p n hstep
        simp only [lineLoop, hstep, if_true] at he
        rcases List.mem_cons.mp he with he0 | hemem
        · refine ⟨n, List.mem_cons_self n ns, ?_⟩
          rw [he0, ← hv]
        · obtain ⟨m, hm, heq⟩ := ih ps (idx + 1) e hemem
          exact ⟨m, List.mem_cons_of_mem n hm, heq⟩
      · rw [Bool.not_eq_true] at hstep
        simp only [lineLoop, hstep, Bool.false_eq_true, if_false] at he
        obtain ⟨m, hm, heq⟩ := ih ps (idx + 1) e he
        exact ⟨m, List.mem_cons_of_mem n hm, heq⟩

/-- C8 (amended): in LINE mode, whenever every raw value of the frame lies
in the nominal device range 0-1023, every emitted event's percentValue
lies within [0.0, 1.0] after two-decimal rounding and optional inversion.
Contrary to the claim, binary-mode readings are NOT clamped before
dividing (`src/pkg/deej/serial.go:290` divides the possibly negative
value directly), so negative binary readings — and line-mode 4-digit
values above 1023 in non-first channels — produce percentValues outside
[0, 1]; see the counterexample. -/
theorem C8_normalized_range (cfg : LineConfig) (s : LineState) (numbers : List Int)
    (hvals : ∀ n ∈ numbers, 0 ≤ n ∧ n ≤ 1023) :
    ∀ e ∈ (handleLineCore cfg s numbers).2,
      0 ≤ e.PercentValue ∧ e.PercentValue ≤ 1 := by
  intro e he
  cases numbers with
  | nil => simp [handleLineCore] at he
  | cons n0 ns =>
    simp only [handleLineCore] at he
    by_cases h0 : n0 > 1023
    · rw [if_pos h0] at he
      simp at he
    · rw [if_neg h0] at he
      obtain ⟨n, hn, heq⟩ := lineLoop_event_values cfg (n0 :: ns) _ 0 e he
      have hb := normalizeLine_bounds cfg (hvals n hn).1 (hvals n hn).2
      rw [heq]
      exact hb

/-- C8 (counterexample): binary-mode readings are not clamped: the frame
`[0x06, 0x00]` decodes to the reading -512, which normalizes to -0.5 and
is emitted as an event whose percentValue -1/2 lies outside [0.0, 1.0]. -/
theorem C8_counterexample :
    handleBytes ⟨false, 1/40, []⟩ (fun _ => 0) ⟨1, [⟨1/2, false⟩]⟩ [6, 0]
      = some (⟨1, [⟨-1/2, true⟩]⟩, [⟨0, -1/2, false⟩])
    ∧ ¬ (0 ≤ (-1/2 : ℚ)) := by
  have hd : decodeData [6, 0] = some [⟨-512, false⟩] := by decide
  have hn : normalizeBytes ⟨false, 1/40, []⟩ (fun _ => 0) 0
      ((⟨-512, false⟩ : ArduinoData).Value) = -1/2 := by
    rw [normalizeBytes_plain]
    have hc : ((((⟨-512, false⟩ : ArduinoData).Value : Int) : ℚ)) / 1023
        = (-512 : ℚ) / 1023 := by norm_num
    rw [hc, NS_neg512]
  have hstep : bytesSliderStep ⟨false, 1/40, []⟩ (fun _ => 0) 0
      ⟨1/2, false⟩ ⟨-512, false⟩ = (⟨-1/2, true⟩, some ⟨0, -1/2, false⟩) := by
    unfold bytesSliderStep
    rw [hn]
    have hs : SignificantlyDifferent ((2 : ℚ)⁻¹) (-1/2) ((40 : ℚ)⁻¹) = true := by
      unfold SignificantlyDifferent
      norm_num
    simp [hs]
  have hmain : handleBytes ⟨false, 1/40, []⟩ (fun _ => 0) ⟨1, [⟨1/2, false⟩]⟩ [6, 0]
      = some (⟨1, [⟨-1/2, true⟩]⟩, [⟨0, -1/2, false⟩]) := by
    unfold handleBytes
    rw [hd]
    simp only [Option.map_some']
    have hreset : resetIfNeededBytes ⟨1, [⟨1/2, false⟩]⟩
        ([⟨-512, false⟩] : List ArduinoData).length = ⟨1, [⟨1/2, false⟩]⟩ := by
      unfold resetIfNeededBytes
      norm_num
    simp only [handleBytesCore, hreset]
    rw [if_neg (by norm_num : ¬ ((⟨-512, false⟩ : ArduinoData).Value > 1023))]
    simp only [bytesLoop, hstep]
  exact ⟨hmain, by norm_num⟩

/-- Witness for C8: the in-range line frame `[1023]` emits the event
`⟨0, 1⟩`, whose percentValue lies in [0, 1]. -/
theorem C8_normalized_range_witness :
    0 ≤ (⟨0, 1⟩ : SliderMoveEvent).PercentValue
    ∧ (⟨0, 1⟩ : SliderMoveEvent).PercentValue ≤ 1 := by
  have hnl : normalizeLine ⟨false, 1/40⟩ 1023 = 1 := by
    unfold normalizeLine
    have hc : (((1023 : Int) : ℚ)) / 1023 = (1023 : ℚ) / 1023 := by norm_num
    simp only [hc, NS_one]
    simp
  have hstep : lineSliderStep ⟨false, 1/40⟩ (-1) 1023 = (1, true) := by
    unfold lineSliderStep
    rw [hnl]
    have hs : SignificantlyDifferent (-1 : ℚ) 1 ((40 : ℚ)⁻¹) = true := by
      unfold SignificantlyDifferent
      norm_num
    simp [hs]
  have hev : (handleLineCore ⟨false, 1/40⟩ ⟨0, []⟩ [1023]).2 = [⟨0, 1⟩] := by
    have hreset : resetIfNeededLine ⟨0, []⟩ ([1023] : List Int).length = ⟨1, [-1]⟩ := by
      unfold resetIfNeededLine
      norm_num
    simp only [handleLineCore, hreset]
    rw [if_neg (by norm_num : ¬ ((1023 : Int) > 1023))]
    simp only [lineLoop, hstep]
    simp
  exact C8_normalized_range ⟨false, 1/40⟩ ⟨0, []⟩ [1023] (by decide) ⟨0, 1⟩
    (by rw [hev]; exact List.mem_singleton_self _)
